import Mathlib

/-!
Shallow embedding of `src/circleOfTrustSimulation.js` (the second, authoritative
copy of each definition in that file — the one actually exercised by
`runSimulation`).  JavaScript numbers are modelled as rationals (`ℚ`); the
random draws consumed by `Math.random()` are passed in explicitly as rational
oracles in `[0,1)`.  Methods that mutate `this` are modelled as functions from
the receiver to the updated receiver; methods that may `throw` return the
receiver as mutated up to the throwing statement together with an
`Option String` error.
-/

namespace CircleOfTrust

/-! SIM_CONFIG (second config block, lines 318-330 of the source). -/

def AVG_LINES_PER_POINT : ℚ := 100

def AVG_POINTS : ℚ := 5

def LINES_PER_REVIEWER : ℚ := 500

def REVIEWER_ERROR_RATE : ℚ := 5 / 100

def DEVELOPER_ERROR_RATE : ℚ := 1 / 10

/-! Random helpers (source lines 341-346).  Each `Math.random()` result is an
explicit argument, assumed to lie in `[0,1)` where a claim needs it. -/

/-- `coinFlip = () => Math.random() > 0.5 ? 1 : -1`. -/
def coinFlip (r : ℚ) : ℚ :=
  if r > 1 / 2 then 1 else -1

/-- `normalDist = (someAverage) => someAverage * (1 + coinFlip() * Math.random())`,
with the coin flip result and the second random draw passed explicitly. -/
def normalDist (someAverage flip u : ℚ) : ℚ :=
  someAverage * (1 + flip * u)

/-- `rollError = (errorRate) => Math.random() < errorRate`. -/
def rollError (u errorRate : ℚ) : Bool :=
  u < errorRate

/-- `randTaskPoints = () => normalDist(SIM_CONFIG.TASK.AVG_POINTS)`. -/
def randTaskPoints (r u : ℚ) : ℚ :=
  normalDist AVG_POINTS (coinFlip r) u

/-- `rollForDevError = () => rollError(SIM_CONFIG.DEVELOPER.ERROR_RATE)`. -/
def rollForDevError (u : ℚ) : Bool :=
  rollError u DEVELOPER_ERROR_RATE

/-- `rollForRevError = () => rollError(SIM_CONFIG.REVIEWER.ERROR_RATE)`. -/
def rollForRevError (u : ℚ) : Bool :=
  rollError u REVIEWER_ERROR_RATE

/-! Value definitions (source lines 349-350). -/

/-- `taskLines = (taskPoints) => taskPoints * SIM_CONFIG.TASK.AVG_LINES_PER_POINT`. -/
def taskLines (taskPoints : ℚ) : ℚ :=
  taskPoints * AVG_LINES_PER_POINT

/-- `requiredReviews = (taskLines) => Math.ceil(taskLines / SIM_CONFIG.TASK.LINES_PER_REVIEWER)`. -/
def requiredReviews (tl : ℚ) : ℤ :=
  ⌈tl / LINES_PER_REVIEWER⌉

/-! JavaScript values, as far as the membership queries need them: the `Set`
class method `contains` returns `this.values[value]`, which is the stored `true`
for a present key and `undefined` for an absent one, and the bodies of
`Task.hasError` / `Task.hasReviewer` have no `return` statement, so those
method calls evaluate to `undefined`. -/

inductive JSVal where
  | undefined : JSVal
  | bool : Bool → JSVal
deriving DecidableEq, Repr

/-- JavaScript truthiness of the values above: `undefined` is falsy. -/
def JSVal.truthy : JSVal → Bool
  | JSVal.undefined => false
  | JSVal.bool b => b

/-! The `Set` class (source lines 570-590).  It stores membership as keys of a
plain object (`this.values[value] = true`), so the key list can never contain
duplicates; we carry that representation invariant as a `Nodup` proof.
`length()` is `Object.entries(this.values).length`, the number of keys. -/

structure SimSet (α : Type) where
  values : List α
  nodup : values.Nodup

theorem SimSet.eq_of_values_eq {α : Type} {s1 s2 : SimSet α}
    (h : s1.values = s2.values) : s1 = s2 := by
  cases s1
  cases s2
  cases h
  rfl

instance {α : Type} [DecidableEq α] : DecidableEq (SimSet α) := fun s1 s2 =>
  if h : s1.values = s2.values then isTrue (SimSet.eq_of_values_eq h)
  else isFalse (fun he => h (congrArg SimSet.values he))

/-- `contains(value) { return this.values[value]; }` — the stored `true` when
the key is present, `undefined` otherwise. -/
def SimSet.contains {α : Type} [DecidableEq α] (s : SimSet α) (value : α) : JSVal :=
  if value ∈ s.values then JSVal.bool true else JSVal.undefined

/-- `add(value) { this.values[value] = true; }` — setting an existing key is a
no-op on the key list; a new key is appended. -/
def SimSet.add {α : Type} [DecidableEq α] (s : SimSet α) (value : α) : SimSet α :=
  if h : value ∈ s.values then s
  else ⟨s.values ++ [value], by
    simp [List.nodup_append, s.nodup, h]⟩

/-- `remove(value) { delete this.values[value]; }`. -/
def SimSet.remove {α : Type} [DecidableEq α] (s : SimSet α) (value : α) : SimSet α :=
  ⟨s.values.erase value, s.nodup.erase value⟩

/-- `length() { return Object.entries(this.values).length; }`. -/
def SimSet.length {α : Type} (s : SimSet α) : ℕ :=
  s.values.length

/-! The task state machine (source lines 560-660). -/

inductive TaskState where
  | toDo
  | inProgress
  | readyForReview
  | inReview
  | complete
deriving DecidableEq, Repr

structure Task where
  state : TaskState
  points : ℚ
  errorLines : SimSet ℕ
  reviewedBy : SimSet String
deriving DecidableEq

/-- `isFullyReviewed()`:
`this.state === TASK.STATE.COMPLETE || (requiredReviews(taskLines(this.points)) <= this.reviewedBy.length())`. -/
def Task.isFullyReviewed (t : Task) : Bool :=
  decide (t.state = TaskState.complete) ||
    decide (requiredReviews (taskLines t.points) ≤ (t.reviewedBy.length : ℤ))

/-- `addError(lineNumber) { this.errorLines.add(lineNumber); }`. -/
def Task.addError (t : Task) (lineNumber : ℕ) : Task :=
  { t with errorLines := t.errorLines.add lineNumber }

/-- `hasError(lineNumber) { this.errorLines.contains(lineNumber); }` — the body
evaluates the membership query but has no `return` statement, so the method
call itself evaluates to `undefined` for every input. -/
def Task.hasError (t : Task) (lineNumber : ℕ) : JSVal :=
  let _evaluatedAndDiscarded := t.errorLines.contains lineNumber
  JSVal.undefined

/-- `correctError(lineNumber) { this.errorLines.remove(lineNumber); }`. -/
def Task.correctError (t : Task) (lineNumber : ℕ) : Task :=
  { t with errorLines := t.errorLines.remove lineNumber }

/-- `addReviewer(name) { this.reviewedBy.add(name); }`. -/
def Task.addReviewer (t : Task) (name : String) : Task :=
  { t with reviewedBy := t.reviewedBy.add name }

/-- `hasReviewer(name) { this.reviewedBy.contains(name); }` — again no
`return` statement, so the call evaluates to `undefined` for every input. -/
def Task.hasReviewer (t : Task) (name : String) : JSVal :=
  let _evaluatedAndDiscarded := t.reviewedBy.contains name
  JSVal.undefined

/-- `nextState(allowedInitialState, nextState)`: throws before any mutation
when the current state is not the allowed initial state, otherwise assigns the
target state.  The thrown error is modelled as `some` message. -/
def Task.nextState (t : Task) (allowedInitialState target : TaskState) :
    Task × Option String :=
  if t.state ≠ allowedInitialState then
    (t, some "cannot transition task")
  else
    ({ t with state := target }, none)

/-- `start() { this.nextState(TASK.STATE.TO_DO, TASK.STATE.IN_PROGRESS); }`. -/
def Task.start (t : Task) : Task × Option String :=
  t.nextState TaskState.toDo TaskState.inProgress

/-- `createPR() { this.nextState(TASK.STATE.IN_PROGRESS, TASK.STATE.READY_FOR_REVIEW); }`. -/
def Task.createPR (t : Task) : Task × Option String :=
  t.nextState TaskState.inProgress TaskState.readyForReview

/-- `complete()` (source lines 651-659): guarded by `isFullyReviewed`; from
READY_FOR_REVIEW it first steps to IN_REVIEW and then to COMPLETE; a thrown
error from the first `nextState` call aborts the second. -/
def Task.complete (t : Task) : Task × Option String :=
  if t.isFullyReviewed then
    if t.state = TaskState.readyForReview then
      match t.nextState TaskState.readyForReview TaskState.inReview with
      | (t1, some e) => (t1, some e)
      | (t1, none) => t1.nextState TaskState.inReview TaskState.complete
    else
      t.nextState TaskState.inReview TaskState.complete
  else
    (t, none)

/-- `reviewPR(reviewer)` (source lines 641-649): adds the reviewer first, then
either completes (when fully reviewed) or advances READY_FOR_REVIEW to
IN_REVIEW. -/
def Task.reviewPR (t : Task) (reviewer : String) : Task × Option String :=
  let t1 := t.addReviewer reviewer
  if t1.isFullyReviewed then
    t1.complete
  else if t1.state ≠ TaskState.inReview then
    t1.nextState TaskState.readyForReview TaskState.inReview
  else
    (t1, none)

/-! Loop bounds.  `for (let i = 0; i < taskLines(task.points); i++)` executes
once for every natural number `i` with `(i : ℚ) < taskLines(task.points)`,
i.e. `⌈taskLines(task.points)⌉` times (and zero times when that bound is not
positive). -/

/-- Number of iterations of the per-line loops in `Developer.performTask` and
`Reviewer.review` for a given task. -/
def numLineIterations (t : Task) : ℕ :=
  (⌈taskLines t.points⌉ : ℤ).toNat

/-- The per-line authoring loop of `Developer.performTask` (source lines
543-547): for each line index, a developer roll that triggers the error rate
flags the line.  `devRolls i` is the `Math.random()` draw consumed at line
`i`. -/
def authorPass (t : Task) (devRolls : ℕ → ℚ) : Task :=
  (List.range (numLineIterations t)).foldl
    (fun tk lineNumber =>
      if rollForDevError (devRolls lineNumber) then tk.addError lineNumber
      else tk)
    t

/-- The per-line repair loop of `Reviewer.review` (source lines 497-501):
`if (task.hasError(i) && !rollForRevError()) task.correctError(i)`.
`revRolls i` is the `Math.random()` draw the reviewer would consume at line
`i`.  Note the guard uses the truthiness of `task.hasError(i)`, which — the
method body having no `return` — is `undefined`, hence falsy. -/
def reviewPass (t : Task) (revRolls : ℕ → ℚ) : Task :=
  (List.range (numLineIterations t)).foldl
    (fun tk i =>
      if (tk.hasError i).truthy && !rollForRevError (revRolls i) then
        tk.correctError i
      else
        tk)
    t

/-! Reviewer records (source lines 471-519).  Only the assignment gate is
needed by the claims; the per-task body of the synchronous drain loop is
`reviewPass` followed by `reviewPR`, modelled above. -/

structure Reviewer where
  assignedTasks : List Task
  isReviewing : Bool
  revName : String
deriving DecidableEq

/-- `Reviewer.assign(task)` (source lines 482-490): enqueue the task when
`!task.hasReviewer(this.revName)` — which, `hasReviewer` returning
`undefined`, is always the case.  (The subsequent idle-triggered `review()`
drain is modelled separately by `reviewPass`.) -/
def Reviewer.assign (rv : Reviewer) (t : Task) : Reviewer :=
  if !(t.hasReviewer rv.revName).truthy then
    { rv with assignedTasks := rv.assignedTasks ++ [t] }
  else
    rv

/-! The dispatcher (`ReviewerQueue.dispatchTaskToReviewer`, source lines
458-468).  The JS recursion is unbounded (it never terminates when every
queued reviewer fails the gate); we bound it by the queue length, returning
`none` both for an empty queue (where the JS would fault on
`undefined.revName`) and on fuel exhaustion (where the JS would recurse
forever). -/

def dispatchAux (t : Task) : ℕ → List Reviewer → Option (Reviewer × List Reviewer)
  | _, [] => none
  | 0, _ => none
  | fuel + 1, reviewer :: rest =>
      if !(t.hasReviewer reviewer.revName).truthy then
        some (reviewer.assign t, rest ++ [reviewer.assign t])
      else
        dispatchAux t fuel (rest ++ [reviewer])

/-- `dispatchTaskToReviewer(task)`: pop the head reviewer; assign and rotate
when the eligibility gate passes, otherwise rotate and retry.  Returns the
reviewer that received the task and the rotated queue. -/
def dispatchTaskToReviewer (t : Task) (q : List Reviewer) :
    Option (Reviewer × List Reviewer) :=
  dispatchAux t q.length q

/-! The project manager (source lines 381-442). -/

structure ProjectManager where
  todo : List Task
  completed : List Task

/-- The dynamically keyed assignment event name,
`DEV_TASK_ASSIGNMENT = (devName) => taskAssignedTo-devName`. -/
def devTaskAssignment (devName : String) : String :=
  "taskAssignedTo-" ++ devName

/-- `assignTask(name)` (source lines 397-401): when the backlog is non-empty,
shift its head and emit it on the assignment event keyed by `name`; otherwise
do nothing.  The emitted event, if any, is returned alongside the updated
manager. -/
def ProjectManager.assignTask (pm : ProjectManager) (name : String) :
    Option (String × Task) × ProjectManager :=
  match pm.todo with
  | [] => (none, pm)
  | t :: rest => (some (devTaskAssignment name, t), { pm with todo := rest })

/-- `markTaskComplete(task) { this.completed.push(task); }`. -/
def ProjectManager.markTaskComplete (pm : ProjectManager) (t : Task) : ProjectManager :=
  { pm with completed := pm.completed ++ [t] }

/-! JavaScript division results for `sprintReview`: every divisor there is a
finite number, and dividing finite numbers yields `NaN` for `0/0`, a signed
infinity for `x/0` with `x ≠ 0`, and an ordinary quotient otherwise. -/

inductive JSNum where
  | num : ℚ → JSNum
  | nan : JSNum
  | inf : JSNum
  | negInf : JSNum
deriving DecidableEq, Repr

/-- JavaScript `/` on finite operands. -/
def jsDiv (a b : ℚ) : JSNum :=
  if b = 0 then
    if a = 0 then JSNum.nan
    else if 0 < a then JSNum.inf
    else JSNum.negInf
  else
    JSNum.num (a / b)

structure SprintStats where
  totalPoints : ℚ
  averagePoints : JSNum
  totalLines : ℚ
  averageLines : JSNum
  totalErrorLines : ℕ
  averageErrorLines : JSNum
  percentError : JSNum
  reviews : ℕ
  averageReviewsPerPr : JSNum
  prsReviewed : ℕ
deriving DecidableEq, Repr

/-- `sprintReview()` (source lines 411-441): fold the completed list into
totals, then derive every average by dividing by `this.completed.length`
without guarding against an empty list. -/
def ProjectManager.sprintReview (pm : ProjectManager) : SprintStats :=
  let totalPoints : ℚ := (pm.completed.map (fun t => t.points)).sum
  let totalErrorLines : ℕ := (pm.completed.map (fun t => t.errorLines.length)).sum
  let reviews : ℕ := (pm.completed.map (fun t => t.reviewedBy.length)).sum
  let n : ℚ := pm.completed.length
  let totalLines : ℚ := taskLines totalPoints
  { totalPoints := totalPoints
    averagePoints := jsDiv totalPoints n
    totalLines := totalLines
    averageLines := jsDiv totalLines n
    totalErrorLines := totalErrorLines
    averageErrorLines := jsDiv totalErrorLines n
    percentError := jsDiv (100 * totalErrorLines) totalLines
    reviews := reviews
    averageReviewsPerPr := jsDiv reviews n
    prsReviewed := pm.completed.length }

/-! Spec-side definitions, written from the words of the specification, for the
refinement-style comparison with the source-derived `Task.isFullyReviewed`. -/

/-- Modelled from the spec: `requiredReviews = ceil(points × averageLinesPerPoint / linesPerReviewerThreshold)`. -/
def specRequiredReviews (points : ℚ) : ℤ :=
  ⌈points * AVG_LINES_PER_POINT / LINES_PER_REVIEWER⌉

/-- Modelled from the spec: `isFullyReviewed ⟺ state = Complete ∨ |reviewedBy| ≥ requiredReviews`
(the `reviewedBy` key list is duplicate-free, so its length is the number of
distinct reviewer identities). -/
def specFullyReviewed (t : Task) : Prop :=
  t.state = TaskState.complete ∨ specRequiredReviews t.points ≤ (t.reviewedBy.length : ℤ)

instance (t : Task) : Decidable (specFullyReviewed t) := by
  unfold specFullyReviewed
  infer_instance

/-! Helper lemmas about the `Set` class. -/

theorem SimSet.add_of_mem {α : Type} [DecidableEq α] {s : SimSet α} {v : α}
    (h : v ∈ s.values) : s.add v = s :=
  dif_pos h

theorem SimSet.values_add_of_not_mem {α : Type} [DecidableEq α] {s : SimSet α} {v : α}
    (h : v ∉ s.values) : (s.add v).values = s.values ++ [v] := by
  unfold SimSet.add
  rw [dif_neg h]

theorem SimSet.length_le_length_add {α : Type} [DecidableEq α] (s : SimSet α) (v : α) :
    s.length ≤ (s.add v).length := by
  unfold SimSet.add
  split
  · exact le_refl _
  · simp [SimSet.length]

theorem SimSet.mem_values_add_self {α : Type} [DecidableEq α] (s : SimSet α) (v : α) :
    v ∈ (s.add v).values := by
  unfold SimSet.add
  split
  · assumption
  · simp

theorem SimSet.add_add_self {α : Type} [DecidableEq α] (s : SimSet α) (v : α) :
    (s.add v).add v = s.add v :=
  SimSet.add_of_mem (SimSet.mem_values_add_self s v)

/-! Helper lemmas: which fields each state-machine method can touch.
`nextState` only writes `state`; `complete` only calls `nextState`;
`reviewPR` additionally adds the reviewer. -/

theorem Task.nextState_fst_points (t : Task) (a b : TaskState) :
    (t.nextState a b).1.points = t.points := by
  unfold Task.nextState
  split <;> rfl

theorem Task.nextState_fst_errorLines (t : Task) (a b : TaskState) :
    (t.nextState a b).1.errorLines = t.errorLines := by
  unfold Task.nextState
  split <;> rfl

theorem Task.nextState_fst_reviewedBy (t : Task) (a b : TaskState) :
    (t.nextState a b).1.reviewedBy = t.reviewedBy := by
  unfold Task.nextState
  split <;> rfl

theorem Task.addReviewer_state (t : Task) (r : String) :
    (t.addReviewer r).state = t.state := rfl

theorem Task.addReviewer_points (t : Task) (r : String) :
    (t.addReviewer r).points = t.points := rfl

theorem Task.addReviewer_errorLines (t : Task) (r : String) :
    (t.addReviewer r).errorLines = t.errorLines := rfl

theorem Task.complete_fst_points (t : Task) : (t.complete).1.points = t.points := by
  unfold Task.complete
  split
  · split
    · split
      next heq => rw [(congrArg Prod.fst heq : _).symm.trans rfl, Task.nextState_fst_points]
      next t1 heq =>
        rw [Task.nextState_fst_points]
        have := congrArg (fun p => p.1.points) heq
        simpa [Task.nextState_fst_points] using this.symm
    · exact Task.nextState_fst_points t _ _
  · rfl

theorem Task.complete_fst_errorLines (t : Task) :
    (t.complete).1.errorLines = t.errorLines := by
  unfold Task.complete
  split
  · split
    · split
      next heq =>
        have := congrArg (fun p => p.1.errorLines) heq
        simpa [Task.nextState_fst_errorLines] using this.symm
      next t1 heq =>
        rw [Task.nextState_fst_errorLines]
        have := congrArg (fun p => p.1.errorLines) heq
        simpa [Task.nextState_fst_errorLines] using this.symm
    · exact Task.nextState_fst_errorLines t _ _
  · rfl

theorem Task.complete_fst_reviewedBy (t : Task) :
    (t.complete).1.reviewedBy = t.reviewedBy := by
  unfold Task.complete
  split
  · split
    · split
      next heq =>
        have := congrArg (fun p => p.1.reviewedBy) heq
        simpa [Task.nextState_fst_reviewedBy] using this.symm
      next t1 heq =>
        rw [Task.nextState_fst_reviewedBy]
        have := congrArg (fun p => p.1.reviewedBy) heq
        simpa [Task.nextState_fst_reviewedBy] using this.symm
    · exact Task.nextState_fst_reviewedBy t _ _
  · rfl

theorem Task.reviewPR_fst_reviewedBy (t : Task) (r : String) :
    (t.reviewPR r).1.reviewedBy = (t.addReviewer r).reviewedBy := by
  unfold Task.reviewPR
  dsimp only
  split
  · exact Task.complete_fst_reviewedBy _
  · split
    · exact Task.nextState_fst_reviewedBy _ _ _
    · rfl

theorem Task.reviewPR_fst_errorLines (t : Task) (r : String) :
    (t.reviewPR r).1.errorLines = t.errorLines := by
  unfold Task.reviewPR
  dsimp only
  split
  · exact Task.complete_fst_errorLines _
  · split
    · exact Task.nextState_fst_errorLines _ _ _
    · rfl

theorem Task.reviewPR_fst_points (t : Task) (r : String) :
    (t.reviewPR r).1.points = t.points := by
  unfold Task.reviewPR
  dsimp only
  split
  · exact Task.complete_fst_points _
  · split
    · exact Task.nextState_fst_points _ _ _
    · rfl

/-- Behaviour of `complete` on a fully reviewed task in READY_FOR_REVIEW. -/
theorem Task.complete_of_ready {t : Task} (hs : t.state = TaskState.readyForReview)
    (hf : t.isFullyReviewed = true) :
    t.complete = ({ t with state := TaskState.complete }, none) := by
  rcases t with ⟨s, p, e, rv⟩
  subst hs
  simp [Task.complete, hf, Task.nextState]

/-- Behaviour of `complete` on a fully reviewed task in IN_REVIEW. -/
theorem Task.complete_of_inReview {t : Task} (hs : t.state = TaskState.inReview)
    (hf : t.isFullyReviewed = true) :
    t.complete = ({ t with state := TaskState.complete }, none) := by
  rcases t with ⟨s, p, e, rv⟩
  subst hs
  simp [Task.complete, hf, Task.nextState]

/-- Behaviour of `complete` on a fully reviewed task in any other state:
the `IN_REVIEW → COMPLETE` guard throws. -/
theorem Task.complete_of_other {t : Task}
    (h1 : t.state ≠ TaskState.readyForReview) (h2 : t.state ≠ TaskState.inReview)
    (hf : t.isFullyReviewed = true) :
    t.complete = (t, some "cannot transition task") := by
  rcases t with ⟨s, p, e, rv⟩
  simp only at h1 h2
  simp [Task.complete, hf, Task.nextState, h1, h2]

/-! Claim theorems. -/

/-- C2: for every task, `isFullyReviewed()` returns true if and only if the
state of the task is Complete or the number of distinct reviewers in `reviewedBy`
(the length of its duplicate-free key list) is at least
`requiredReviews = ceil(points × averageLinesPerPoint / linesPerReviewerThreshold)`. -/
theorem isFullyReviewed_iff (t : Task) :
    t.isFullyReviewed = true ↔ specFullyReviewed t := by
  unfold Task.isFullyReviewed specFullyReviewed specRequiredReviews requiredReviews taskLines
  simp [decide_eq_true_iff]

/-- C3 (refuting evaluation): `Task.hasError` and `Task.hasReviewer` do not
return the membership boolean — their bodies lack a `return` statement, so
both always evaluate to the falsy `undefined`, even on a line that is in
`errorLines` / a name that is in `reviewedBy` (membership witnessed by
`Set.contains` returning `true` on the same inputs). -/
theorem membership_queries_return_undefined :
    (∀ (t : Task) (n : ℕ), t.hasError n = JSVal.undefined ∧ (t.hasError n).truthy = false) ∧
    (∀ (t : Task) (r : String),
      t.hasReviewer r = JSVal.undefined ∧ (t.hasReviewer r).truthy = false) ∧
    SimSet.contains (⟨[0], by simp⟩ : SimSet ℕ) 0 = JSVal.bool true ∧
    (Task.mk TaskState.inReview 5 ⟨[0], by simp⟩ ⟨["hannah"], by simp⟩).hasError 0 =
      JSVal.undefined ∧
    SimSet.contains (⟨["hannah"], by simp⟩ : SimSet String) "hannah" = JSVal.bool true ∧
    (Task.mk TaskState.inReview 5 ⟨[0], by simp⟩ ⟨["hannah"], by simp⟩).hasReviewer "hannah" =
      JSVal.undefined :=
  ⟨fun _ _ => ⟨rfl, rfl⟩, fun _ _ => ⟨rfl, rfl⟩,
    by with_unfolding_all rfl, rfl, by with_unfolding_all rfl, rfl⟩

/-- C4 (refuting evaluation): because `hasError` evaluates to the falsy
`undefined`, the reviewer repair loop never calls `correctError` — a review
pass leaves `errorLines` (and the whole task) unchanged for every outcome of
the correction rolls.  Concretely: authoring with always-triggering developer
rolls flags every line of a 5-line task, a reviewer roll of 1/2 does not
trigger the 0.05 error rate (so the claim says it must clear each flag), and
yet the pass leaves all 5 residual error lines. -/
theorem reviewPass_never_corrects :
    (∀ (t : Task) (revRolls : ℕ → ℚ), reviewPass t revRolls = t) ∧
    (authorPass (Task.mk TaskState.inProgress (1 / 20) ⟨[], List.nodup_nil⟩ ⟨[], List.nodup_nil⟩)
        (fun _ => 0)).errorLines.values = List.range 5 ∧
    rollForRevError (1 / 2) = false ∧
    (reviewPass
        (authorPass (Task.mk TaskState.inProgress (1 / 20) ⟨[], List.nodup_nil⟩ ⟨[], List.nodup_nil⟩)
          (fun _ => 0))
        (fun _ => 1 / 2)).errorLines.length = 5 := by
  have main : ∀ (revRolls : ℕ → ℚ) (l : List ℕ) (t : Task),
      l.foldl
        (fun tk i =>
          if (tk.hasError i).truthy && !rollForRevError (revRolls i) then tk.correctError i
          else tk)
        t = t := by
    intro revRolls l
    induction l with
    | nil => intro t; rfl
    | cons x xs ih =>
        intro t
        rw [List.foldl_cons]
        exact ih t
  have hauthor :
      (authorPass (Task.mk TaskState.inProgress (1 / 20) ⟨[], List.nodup_nil⟩ ⟨[], List.nodup_nil⟩)
          (fun _ => 0)).errorLines.values = List.range 5 := by
    with_unfolding_all rfl
  refine ⟨fun t revRolls => main _ _ t, hauthor, by with_unfolding_all rfl, ?_⟩
  rw [reviewPass, main]
  simp only [SimSet.length]
  rw [hauthor]
  rfl

/-- C5 (refuting evaluation): the dispatcher eligibility gate
`!task.hasReviewer(reviewer.revName)` always passes (`hasReviewer` evaluates
to the falsy `undefined`), so a reviewer whose identity is already in the
`reviewedBy` of the task IS assigned the task: with `reviewedBy = ("hannah")` and
rotation queue (hannah, kim), dispatch hands the task straight to hannah, and
the own gate of `Reviewer.assign` also fails to reject it. -/
theorem dispatch_assigns_already_reviewed :
    SimSet.contains (⟨["hannah"], by simp⟩ : SimSet String) "hannah" = JSVal.bool true ∧
    (dispatchTaskToReviewer
        (Task.mk TaskState.inReview 5 ⟨[], List.nodup_nil⟩ ⟨["hannah"], by simp⟩)
        [⟨[], false, "hannah"⟩, ⟨[], false, "kim"⟩]).map (fun p => p.1.revName) =
      some "hannah" ∧
    (Reviewer.assign ⟨[], false, "hannah"⟩
        (Task.mk TaskState.inReview 5 ⟨[], List.nodup_nil⟩ ⟨["hannah"], by simp⟩)).assignedTasks.length = 1 :=
  ⟨by with_unfolding_all rfl, by with_unfolding_all rfl, by with_unfolding_all rfl⟩

/-- C7: on a task-request event, when the backlog is non-empty the manager
removes exactly its head task and publishes it on the assignment event keyed
by the identity of the requesting developer; when the backlog is empty it publishes
nothing and both the backlog and the completed list are unchanged. -/
theorem assignTask_spec (pm : ProjectManager) (name : String) :
    (pm.todo = [] → pm.assignTask name = (none, pm)) ∧
    (∀ (t : Task) (rest : List Task), pm.todo = t :: rest →
      pm.assignTask name =
        (some ("taskAssignedTo-" ++ name, t), ⟨rest, pm.completed⟩)) := by
  rcases pm with ⟨todo, completed⟩
  constructor
  · intro h
    simp only at h
    subst h
    rfl
  · intro t rest h
    simp only at h
    subst h
    rfl

/-- C10: `sprintReview()` on an empty completed list returns a record (no
throw) whose `prsReviewed` and total fields are zero, while every average
field and `percentError` is a `0/0` — in JavaScript, `NaN` — rather than a
defined number. -/
theorem sprintReview_empty :
    ProjectManager.sprintReview ⟨[], []⟩ =
      { totalPoints := 0
        averagePoints := JSNum.nan
        totalLines := 0
        averageLines := JSNum.nan
        totalErrorLines := 0
        averageErrorLines := JSNum.nan
        percentError := JSNum.nan
        reviews := 0
        averageReviewsPerPr := JSNum.nan
        prsReviewed := 0 } := by
  with_unfolding_all rfl

/-- Unfolding equation for `reviewPR`. -/
theorem Task.reviewPR_eq (t : Task) (r : String) :
    t.reviewPR r =
      if (t.addReviewer r).isFullyReviewed then (t.addReviewer r).complete
      else if (t.addReviewer r).state ≠ TaskState.inReview then
        (t.addReviewer r).nextState TaskState.readyForReview TaskState.inReview
      else (t.addReviewer r, none) := rfl

/-- At the threshold, one review is required: `ceil(500/500) = 1`. -/
theorem requiredReviews_at_threshold : requiredReviews LINES_PER_REVIEWER = 1 := by
  with_unfolding_all rfl

/-- C1: for every task in ReadyForReview or InReview, `reviewPR(reviewerId)`
first adds the reviewer to `reviewedBy` and then evaluates `isFullyReviewed`
on the updated task; if satisfied the task ends in Complete, otherwise it ends
in InReview (advancing a ReadyForReview task, leaving an InReview task);
no invalid-transition error is raised.  In particular, for a task whose lines
equal the threshold (so `requiredReviews = 1`) and with no reviews yet, the
very first `reviewPR` call takes it from ReadyForReview to Complete. -/
theorem reviewPR_transitions (t : Task) (r : String)
    (h : t.state = TaskState.readyForReview ∨ t.state = TaskState.inReview) :
    (t.reviewPR r).1.reviewedBy = (t.addReviewer r).reviewedBy ∧
    (t.reviewPR r).2 = none ∧
    ((t.addReviewer r).isFullyReviewed = true →
      (t.reviewPR r).1.state = TaskState.complete) ∧
    ((t.addReviewer r).isFullyReviewed = false →
      (t.reviewPR r).1.state = TaskState.inReview) ∧
    (taskLines t.points = LINES_PER_REVIEWER → t.reviewedBy.length = 0 →
      t.state = TaskState.readyForReview →
      (t.reviewPR r).1.state = TaskState.complete ∧ (t.reviewPR r).2 = none) := by
  have hst : (t.addReviewer r).state = t.state := rfl
  have hmain : (t.reviewPR r).1.state =
      (if (t.addReviewer r).isFullyReviewed then TaskState.complete
       else TaskState.inReview) ∧ (t.reviewPR r).2 = none := by
    rw [Task.reviewPR_eq]
    cases hf : (t.addReviewer r).isFullyReviewed with
    | true =>
        rcases h with hs | hs
        · rw [Task.complete_of_ready (hst.trans hs) hf]
          simp
        · rw [Task.complete_of_inReview (hst.trans hs) hf]
          simp
    | false =>
        rcases h with hs | hs
        · have hne : (t.addReviewer r).state ≠ TaskState.inReview := by
            rw [hst, hs]
            intro hcon
            exact absurd hcon (by simp)
          rw [if_neg (by simp [hf]), if_pos hne, Task.nextState, if_neg (by simp [hst, hs])]
          simp [hf]
        · have hni : ¬((t.addReviewer r).state ≠ TaskState.inReview) :=
            not_not_intro (hst.trans hs)
          rw [if_neg (by simp [hf]), if_neg hni]
          simp [hf, hst, hs]
  refine ⟨Task.reviewPR_fst_reviewedBy t r, hmain.2, ?_, ?_, ?_⟩
  · intro hf
    rw [hmain.1, if_pos (by simp [hf])]
  · intro hf
    rw [hmain.1, if_neg (by simp [hf])]
  · intro hL h0 _
    have hval : t.reviewedBy.values = [] :=
      List.length_eq_zero.mp h0
    have hone : (t.addReviewer r).reviewedBy.length = 1 := by
      show ((t.reviewedBy.add r).values).length = 1
      rw [SimSet.values_add_of_not_mem (by rw [hval]; exact List.not_mem_nil r), hval]
      rfl
    have hf : (t.addReviewer r).isFullyReviewed = true := by
      unfold Task.isFullyReviewed
      rw [Task.addReviewer_points, hL, requiredReviews_at_threshold, hone]
      simp
    exact ⟨by rw [hmain.1, if_pos (by simp [hf])], hmain.2⟩

/-- C1 witness: a ReadyForReview task with `points = 5` (500 lines, so
`requiredReviews = 1`) and no reviews yet is completed by its very first
`reviewPR` call, with no error. -/
theorem reviewPR_transitions_witness :
    ((Task.mk TaskState.readyForReview 5 ⟨[], List.nodup_nil⟩
        ⟨[], List.nodup_nil⟩).reviewPR "hannah").1.state = TaskState.complete ∧
    ((Task.mk TaskState.readyForReview 5 ⟨[], List.nodup_nil⟩
        ⟨[], List.nodup_nil⟩).reviewPR "hannah").2 = none :=
  (reviewPR_transitions
      (Task.mk TaskState.readyForReview 5 ⟨[], List.nodup_nil⟩ ⟨[], List.nodup_nil⟩)
      "hannah" (Or.inl rfl)).2.2.2.2
    (by with_unfolding_all rfl) rfl rfl

/-- C6 counterexample: `reviewPR` invoked on a ToDo task (not a legal source
state) throws the invalid-transition error but does NOT leave the task
entirely unchanged — the reviewer has already been added to `reviewedBy`. -/
theorem reviewPR_partial_mutation_cex :
    ((Task.mk TaskState.toDo 5 ⟨[], List.nodup_nil⟩
        ⟨[], List.nodup_nil⟩).reviewPR "hannah").2 = some "cannot transition task" ∧
    ((Task.mk TaskState.toDo 5 ⟨[], List.nodup_nil⟩
        ⟨[], List.nodup_nil⟩).reviewPR "hannah").1.reviewedBy.values = ["hannah"] :=
  ⟨by with_unfolding_all rfl, by with_unfolding_all rfl⟩

/-- C6 amended: `start()` and `createPR()` on a task not in their required
source state throw the invalid-transition error and leave the task entirely
unchanged; `reviewPR` on a task in neither ReadyForReview nor InReview also
throws, and leaves `state`, `points` and `errorLines` unchanged, but has
already added the reviewer to `reviewedBy` (a partial mutation). -/
theorem invalid_transition_amended (t : Task) (r : String) :
    (t.state ≠ TaskState.toDo → t.start = (t, some "cannot transition task")) ∧
    (t.state ≠ TaskState.inProgress → t.createPR = (t, some "cannot transition task")) ∧
    (t.state ≠ TaskState.readyForReview → t.state ≠ TaskState.inReview →
      (t.reviewPR r).2 = some "cannot transition task" ∧
      (t.reviewPR r).1.state = t.state ∧
      (t.reviewPR r).1.points = t.points ∧
      (t.reviewPR r).1.errorLines = t.errorLines ∧
      (t.reviewPR r).1.reviewedBy = (t.addReviewer r).reviewedBy) := by
  have hst : (t.addReviewer r).state = t.state := rfl
  refine ⟨fun h => by simp [Task.start, Task.nextState, h],
    fun h => by simp [Task.createPR, Task.nextState, h],
    fun h1 h2 => ?_⟩
  have hmain : t.reviewPR r = (t.addReviewer r, some "cannot transition task") := by
    rw [Task.reviewPR_eq]
    cases hf : (t.addReviewer r).isFullyReviewed with
    | true =>
        rw [if_pos (by simp),
          Task.complete_of_other (hst.trans_ne h1) (hst.trans_ne h2) hf]
    | false =>
        rw [if_neg (by simp), if_pos (hst.trans_ne h2), Task.nextState,
          if_pos (hst.trans_ne h1)]
  rw [hmain]
  exact ⟨rfl, hst, rfl, rfl, rfl⟩

/-- C6 witness: `start()` on an InProgress task throws and leaves it
unchanged; `reviewPR` on a Complete task throws with state, points and
errorLines unchanged but with the reviewer added. -/
theorem invalid_transition_amended_witness :
    (Task.mk TaskState.inProgress 5 ⟨[], List.nodup_nil⟩ ⟨[], List.nodup_nil⟩).start =
      (Task.mk TaskState.inProgress 5 ⟨[], List.nodup_nil⟩ ⟨[], List.nodup_nil⟩,
        some "cannot transition task") ∧
    ((Task.mk TaskState.complete 5 ⟨[], List.nodup_nil⟩
        ⟨[], List.nodup_nil⟩).reviewPR "kim").2 = some "cannot transition task" ∧
    ((Task.mk TaskState.complete 5 ⟨[], List.nodup_nil⟩
        ⟨[], List.nodup_nil⟩).reviewPR "kim").1.state = TaskState.complete :=
  ⟨(invalid_transition_amended
      (Task.mk TaskState.inProgress 5 ⟨[], List.nodup_nil⟩ ⟨[], List.nodup_nil⟩)
      "kim").1 (by decide),
    ((invalid_transition_amended
      (Task.mk TaskState.complete 5 ⟨[], List.nodup_nil⟩ ⟨[], List.nodup_nil⟩)
      "kim").2.2 (by decide) (by decide)).1,
    ((invalid_transition_amended
      (Task.mk TaskState.complete 5 ⟨[], List.nodup_nil⟩ ⟨[], List.nodup_nil⟩)
      "kim").2.2 (by decide) (by decide)).2.1⟩

theorem SimSet.mem_of_contains_true {α : Type} [DecidableEq α] {s : SimSet α} {v : α}
    (h : s.contains v = JSVal.bool true) : v ∈ s.values := by
  by_contra hm
  rw [SimSet.contains, if_neg hm] at h
  exact JSVal.noConfusion h

/-- C8: the reported length of `reviewedBy` is non-decreasing under every Task
operation; adding an identity that is already present (membership witnessed
by `contains` returning the stored `true`) leaves the task — hence
`reviewedBy` and its length — unchanged, and a repeated add is a no-op, so
`length()` counts distinct identities (the key list stays duplicate-free). -/
theorem reviewedBy_monotone (t : Task) (r : String) (n : ℕ) :
    t.reviewedBy.length ≤ (t.start).1.reviewedBy.length ∧
    t.reviewedBy.length ≤ (t.createPR).1.reviewedBy.length ∧
    t.reviewedBy.length ≤ (t.complete).1.reviewedBy.length ∧
    t.reviewedBy.length ≤ (t.addError n).reviewedBy.length ∧
    t.reviewedBy.length ≤ (t.correctError n).reviewedBy.length ∧
    t.reviewedBy.length ≤ (t.addReviewer r).reviewedBy.length ∧
    t.reviewedBy.length ≤ (t.reviewPR r).1.reviewedBy.length ∧
    (t.reviewedBy.contains r = JSVal.bool true → t.addReviewer r = t) ∧
    (t.addReviewer r).addReviewer r = t.addReviewer r ∧
    (t.reviewPR r).1.reviewedBy.length = (t.addReviewer r).reviewedBy.length ∧
    (t.reviewPR r).1.reviewedBy.values.Nodup := by
  refine ⟨?_, ?_, ?_, le_refl _, le_refl _, SimSet.length_le_length_add _ r, ?_, ?_, ?_,
    ?_, ((t.reviewPR r).1.reviewedBy).nodup⟩
  · rw [Task.start, Task.nextState_fst_reviewedBy]
  · rw [Task.createPR, Task.nextState_fst_reviewedBy]
  · rw [Task.complete_fst_reviewedBy]
  · rw [Task.reviewPR_fst_reviewedBy]
    exact SimSet.length_le_length_add _ r
  · intro h
    show { t with reviewedBy := t.reviewedBy.add r } = t
    rw [SimSet.add_of_mem (SimSet.mem_of_contains_true h)]
  · show { t.addReviewer r with reviewedBy := (t.reviewedBy.add r).add r } = t.addReviewer r
    rw [SimSet.add_add_self]
    rfl
  · rw [Task.reviewPR_fst_reviewedBy]

/-- C8 witness: on a task whose `reviewedBy` already holds "hannah"
(membership reported by `contains`), adding "hannah" again changes nothing. -/
theorem reviewedBy_monotone_witness :
    Task.addReviewer
        (Task.mk TaskState.inReview 5 ⟨[], List.nodup_nil⟩ ⟨["hannah"], by simp⟩)
        "hannah" =
      Task.mk TaskState.inReview 5 ⟨[], List.nodup_nil⟩ ⟨["hannah"], by simp⟩ :=
  (reviewedBy_monotone
      (Task.mk TaskState.inReview 5 ⟨[], List.nodup_nil⟩ ⟨["hannah"], by simp⟩)
      "hannah" 0).2.2.2.2.2.2.2.1 (by with_unfolding_all rfl)

/-- C9: `randTaskPoints` is `averagePoints × (1 + s·u)` with `s ∈ (+1, −1)`
chosen by the coin flip — a symmetric multiplicative jitter — so for every
outcome of the draws (with `u ∈ [0,1)`) the sampled value is strictly
positive and strictly below `2 × averagePoints`; moreover no Task operation
ever changes the `points` field set at construction. -/
theorem randTaskPoints_bounds (r u : ℚ) (hu0 : 0 ≤ u) (hu1 : u < 1) :
    (coinFlip r = 1 ∨ coinFlip r = -1) ∧
    randTaskPoints r u = AVG_POINTS * (1 + coinFlip r * u) ∧
    0 < randTaskPoints r u ∧
    randTaskPoints r u < 2 * AVG_POINTS ∧
    (∀ t : Task,
      (t.start).1.points = t.points ∧
      (t.createPR).1.points = t.points ∧
      (t.complete).1.points = t.points ∧
      (∀ rev : String,
        (t.reviewPR rev).1.points = t.points ∧ (t.addReviewer rev).points = t.points) ∧
      (∀ m : ℕ,
        (t.addError m).points = t.points ∧ (t.correctError m).points = t.points)) := by
  refine ⟨?_, rfl, ?_, ?_, fun t =>
    ⟨Task.nextState_fst_points t _ _, Task.nextState_fst_points t _ _,
      Task.complete_fst_points t,
      fun rev => ⟨Task.reviewPR_fst_points t rev, rfl⟩, fun m => ⟨rfl, rfl⟩⟩⟩
  · unfold coinFlip
    split_ifs
    · exact Or.inl rfl
    · exact Or.inr rfl
  · unfold randTaskPoints normalDist coinFlip AVG_POINTS
    split_ifs
    · nlinarith
    · nlinarith
  · unfold randTaskPoints normalDist coinFlip AVG_POINTS
    split_ifs
    · nlinarith
    · nlinarith

/-- C9 witness: at the concrete draws `r = 3/4`, `u = 1/2` the sampled points
value is strictly positive and below `2 × averagePoints`. -/
theorem randTaskPoints_bounds_witness :
    0 < randTaskPoints (3 / 4) (1 / 2) ∧
    randTaskPoints (3 / 4) (1 / 2) < 2 * AVG_POINTS :=
  ⟨(randTaskPoints_bounds (3 / 4) (1 / 2) (by norm_num) (by norm_num)).2.2.1,
   (randTaskPoints_bounds (3 / 4) (1 / 2) (by norm_num) (by norm_num)).2.2.2.1⟩

/-- C7 witness: a concrete empty-backlog request is a silent no-op, and a
concrete one-task backlog hands out exactly its head on the keyed event. -/
theorem assignTask_spec_witness :
    ProjectManager.assignTask ⟨[], []⟩ "elias" = (none, (⟨[], []⟩ : ProjectManager)) ∧
    ProjectManager.assignTask
        ⟨[Task.mk TaskState.toDo 5 ⟨[], List.nodup_nil⟩ ⟨[], List.nodup_nil⟩], []⟩ "elias" =
      (some ("taskAssignedTo-" ++ "elias",
          Task.mk TaskState.toDo 5 ⟨[], List.nodup_nil⟩ ⟨[], List.nodup_nil⟩),
        (⟨[], []⟩ : ProjectManager)) :=
  ⟨(assignTask_spec ⟨[], []⟩ "elias").1 rfl,
   (assignTask_spec
       ⟨[Task.mk TaskState.toDo 5 ⟨[], List.nodup_nil⟩ ⟨[], List.nodup_nil⟩], []⟩
       "elias").2
     (Task.mk TaskState.toDo 5 ⟨[], List.nodup_nil⟩ ⟨[], List.nodup_nil⟩) [] rfl⟩

end CircleOfTrust
